import Mathlib

/-!
Verification of the hybrid retrieval and answer-synthesis pipeline of the
`backend/app.py` RAG service.

The Python source is shallowly embedded below.  Python strings are modelled
as `List Char` (`Str`), which matches Python's character-sequence semantics
for slicing, concatenation and containment.  Scores that the Python code
holds as numpy float arrays are modelled as lists of rationals (`List ℚ`);
machine-float rounding plays no role in any of the properties considered.
External collaborators (the sentence-transformer embedding model, the FAISS
inner-product search, the BM25 library, the Ollama completion service and the
SQLite store) are modelled as oracle inputs: `hybrid_retrieve` receives the
dense score vector, the lexical score vector and the index order produced by
`np.argsort(-combined)` as explicit arguments, and `ask_question` receives a
retrieval oracle and a generation oracle.  `np.argsort` with its default
(unstable) quicksort is represented by an arbitrary index list, constrained
where needed by the predicate `argsortOK` (a permutation of the index range
along which the fused scores are descending), which is exactly the documented
contract of `np.argsort` with the default sort kind.
-/

namespace RAG

/-- Python strings, modelled as character lists. -/
abbrev Str : Type := List Char

/-- Lift a Lean string literal into the model. -/
def pyStr (s : String) : Str := s.toList

/-- Python's substring containment test `pat in s`. -/
def pyIn (pat : Str) : Str → Bool
  | [] => pat.isEmpty
  | x :: xs => pat.isPrefixOf (x :: xs) || pyIn pat xs

/-- Python `str(n)` for a non-negative integer. -/
def natStr (n : ℕ) : Str := (Nat.repr n).toList

/-- Python `str(n)` for an integer. -/
def intStr (n : Int) : Str := (toString n).toList

/-- Python `s.lower()` (the corpus and markers here are ASCII). -/
def pyLower (l : Str) : Str := l.map Char.toLower

/-- Python `s.strip()`. -/
def pyStrip (l : Str) : Str :=
  ((l.dropWhile Char.isWhitespace).reverse.dropWhile Char.isWhitespace).reverse

/-- Python `s.split(c)` for a single separator character: keeps empty parts,
like `"a\n\nb".split('\n') == ["a", "", "b"]`. -/
def pySplitChar (sep : Char) : Str → List Str
  | [] => [[]]
  | c :: cs =>
      if c = sep then [] :: pySplitChar sep cs
      else
        match pySplitChar sep cs with
        | [] => [[c]]
        | h :: t => (c :: h) :: t

/-- Python `s.replace('\n', ' ')`. -/
def replaceNl (l : Str) : Str := l.map (fun c => if c = '\n' then ' ' else c)

/-- A chunk record as assembled by `RAGSystemAPI.load_chunks`. -/
structure Chunk where
  table : Str
  chunk_id : Int
  page_number : Option Int
  text : Str
  embedding : List ℚ
deriving DecidableEq

/-- One retrieval result dict as built inside `RAGSystemAPI.hybrid_retrieve`. -/
structure RResult where
  table : Str
  chunk_id : Int
  page : Option Int
  text : Str
  score : ℚ
  faiss_score : ℚ
  bm25_score : ℚ
deriving DecidableEq

/-- Placeholder chunk used as the (never reached) out-of-range default for
`chunks[idx]` indexing. -/
def dummyChunk : Chunk := ⟨[], 0, none, [], []⟩

/-- `np.min(arr)` for the non-empty arrays `normalize_scores` is applied to. -/
def arrMin (arr : List ℚ) : ℚ := arr.foldl min (arr.headD 0)

/-- `np.max(arr)` for the non-empty arrays `normalize_scores` is applied to. -/
def arrMax (arr : List ℚ) : ℚ := arr.foldl max (arr.headD 0)

/-- The literal `1e-12` of `normalize_scores`. -/
def epsRange : ℚ := 1 / 1000000000000

/-- The configuration constant `MIN_COMBINED_SCORE_TO_ANSWER = 0.12`. -/
def minCombinedScore : ℚ := 12 / 100

/-- `RAGSystemAPI.normalize_scores` (app.py lines 156-163): min-max
normalization; empty arrays are returned unchanged, near-constant arrays
(range below `1e-12`) become all zeros (`np.zeros_like`). -/
def normalize_scores (arr : List ℚ) : List ℚ :=
  if arr = [] then arr
  else if |arrMax arr - arrMin arr| < epsRange then arr.map (fun _ => 0)
  else arr.map (fun x => (x - arrMin arr) / (arrMax arr - arrMin arr))

/-- The fused score vector `alpha * f_norm + (1.0 - alpha) * b_norm`
(app.py line 186). -/
def combined_scores (f_norm b_norm : List ℚ) (alpha : ℚ) : List ℚ :=
  List.zipWith (fun f b => alpha * f + (1 - alpha) * b) f_norm b_norm

/-- The result dict built for index `idx` inside `hybrid_retrieve`
(app.py lines 193-201).  Note the text field is the 300-character preview
`self.chunks[idx]["text"][:300] + "..."`. -/
def mkResult (chunks : List Chunk) (combined f_norm b_norm : List ℚ)
    (idx : ℕ) : RResult :=
  let c := chunks.getD idx dummyChunk
  { table := c.table
    chunk_id := c.chunk_id
    page := c.page_number
    text := c.text.take 300 ++ pyStr "..."
    score := combined.getD idx 0
    faiss_score := f_norm.getD idx 0
    bm25_score := b_norm.getD idx 0 }

/-- The `for idx in top_idxs` loop of `hybrid_retrieve` (app.py lines
189-202): candidates with fused score `<= 0` are skipped (`continue`). -/
def candidates (chunks : List Chunk) (combined f_norm b_norm : List ℚ)
    (top_idxs : List ℕ) : List RResult :=
  top_idxs.filterMap (fun idx =>
    if combined.getD idx 0 ≤ 0 then none
    else some (mkResult chunks combined f_norm b_norm idx))

/-- Stable insertion used to model Python `sorted(results,
key=lambda x: x["score"], reverse=True)`: a new element goes after every
already placed element of greater or equal score. -/
def insertDesc (r : RResult) : List RResult → List RResult
  | [] => [r]
  | x :: xs => if x.score < r.score then r :: x :: xs else x :: insertDesc r xs

/-- Python's stable `sorted(..., key=lambda x: x["score"], reverse=True)`
(app.py line 204). -/
def sortDesc (l : List RResult) : List RResult :=
  l.foldl (fun acc r => insertDesc r acc) []

/-- The candidate list of `hybrid_retrieve` before the final re-sort: score
normalization, fusion, selection of `top_idxs = np.argsort(-combined)[:final_k]`
and the positivity filter (app.py lines 183-202).  The index order produced by
`np.argsort` is an explicit argument `argsort_idxs`. -/
def selection (chunks : List Chunk) (faiss_scores bm25_scores : List ℚ)
    (alpha : ℚ) (argsort_idxs : List ℕ) (final_k : ℕ) : List RResult :=
  candidates chunks
    (combined_scores (normalize_scores faiss_scores) (normalize_scores bm25_scores) alpha)
    (normalize_scores faiss_scores) (normalize_scores bm25_scores)
    (argsort_idxs.take final_k)

/-- `RAGSystemAPI.hybrid_retrieve` (app.py lines 165-204), with the dense
score vector, the lexical score vector and the `np.argsort(-combined)` index
order supplied as oracle inputs. -/
def hybrid_retrieve (chunks : List Chunk) (faiss_scores bm25_scores : List ℚ)
    (alpha : ℚ) (argsort_idxs : List ℕ) (final_k : ℕ) : List RResult :=
  sortDesc (selection chunks faiss_scores bm25_scores alpha argsort_idxs final_k)

/-- The documented contract of `np.argsort(-combined)` (default quicksort):
some permutation of the index range along which `combined` is descending.
Stability is NOT part of this contract. -/
def argsortOK (p : List ℕ) (scores : List ℚ) : Prop :=
  p.Perm (List.range scores.length)
  ∧ p.Chain' (fun i j => scores.getD j 0 ≤ scores.getD i 0)

/-- The `PUT /api/alpha/{value}` handler `set_alpha` (app.py lines 508-513):
returns the new live weight paired with an acceptance flag (`True` models the
200 response, `False` the 400 rejection). -/
def set_alpha (alpha v : ℚ) : ℚ × Bool :=
  if 0 ≤ v ∧ v ≤ 1 then (v, true) else (alpha, false)

/-- The sentinel answer `"Data not found"`. -/
def sentinel : Str := pyStr "Data not found"

/-- The reasoning-marker tuple of `line_lower.startswith(...)`
(app.py line 380). -/
def reasoningMarkers : List Str :=
  [pyStr "thinking:", pyStr "analysis:", pyStr "## analysis",
   pyStr "first,", pyStr "let me", pyStr "i need to"]

/-- The per-line drop test of the post-processing filter (app.py lines
377-384).  Python's `'based on the context' in line_lower and
line_lower.index('based on the context') < 20` holds exactly when the
20-character pattern occurs starting at an index below 20, i.e. when it is
contained in the first 39 characters. -/
def dropLine (line : Str) : Bool :=
  reasoningMarkers.any (fun m => m.isPrefixOf (pyLower line))
  || pyIn (pyStr "based on the context") ((pyLower line).take 39)

/-- The line filter and re-join of the post-processor (app.py lines
373-386): split on newlines, drop reasoning lines, re-join. -/
def filter_lines (answer : Str) : Str :=
  List.intercalate (pyStr "\n")
    ((pySplitChar '\n' answer).filter (fun l => !dropLine l))

/-- The synthetic attribution line appended by the citation-enforcement step
(app.py line 394). -/
def pageStr : Option Int → Str
  | none => pyStr "None"
  | some n => intStr n

/-- The attribution string `f"\n\n*Based on information from: {table},
Page {page}*"` for the top retrieval result. -/
def attribution (top : RResult) : Str :=
  pyStr "\n\n*Based on information from: " ++ top.table ++ pyStr ", Page "
    ++ pageStr top.page ++ pyStr "*"

/-- The citation-enforcement step (app.py lines 389-394).  Note that the
Python `has_citations = any(f"[Source" in answer for f in ["[Source",
"[Table:"])` evaluates the same condition `"[Source" in answer` for both
list elements, so it is exactly that single containment test. -/
def enforce_citation (retrieved : List RResult) (answer : Str) : Str :=
  if answer = [] ∨ answer = sentinel then answer
  else if pyIn (pyStr "[Source") answer then answer
  else
    match retrieved with
    | [] => answer
    | top :: _ => answer ++ attribution top

/-- The strip, line-filter, re-strip prefix of the post-processor
(app.py lines 370-386). -/
def filtered_answer (raw : Str) : Str := pyStrip (filter_lines (pyStrip raw))

/-- The full answer post-processor (app.py lines 370-398): strip, drop
reasoning lines, enforce a citation, and collapse empty or whitespace-only
output to the sentinel (`if not answer or answer.isspace()`). -/
def post_process (retrieved : List RResult) (raw : Str) : Str :=
  if (enforce_citation retrieved (filtered_answer raw)).all Char.isWhitespace
  then sentinel
  else enforce_citation retrieved (filtered_answer raw)

/-- The numbered source tag and content line for one retrieved chunk
(app.py lines 317-320): `f"[Source {i+1}: {table}, Page {page}]: {content}"`
with `content = r['text'].replace('\n', ' ').strip()`. -/
def chunk_with_source (i : ℕ) (r : RResult) : Str :=
  pyStr "[Source " ++ natStr (i + 1) ++ pyStr ": " ++ r.table
    ++ pyStr ", Page " ++ pageStr r.page ++ pyStr "]" ++ pyStr ": "
    ++ pyStrip (replaceNl r.text)

/-- `context_text = "\n\n".join(chunks_with_sources)` over the top five
retrieved results (app.py lines 316-322). -/
def context_text (retrieved : List RResult) : Str :=
  List.intercalate (pyStr "\n\n")
    ((retrieved.take 5).enum.map (fun p => chunk_with_source p.1 p.2))

/-- Prompt template text before the interpolated context (app.py line 325). -/
def promptPart1 : Str :=
  pyStr "# DOCUMENT-BASED QUESTION ANSWERING TASK\n\n## CONTEXT FROM DOCUMENTS:\n"

/-- Prompt template text between the context and the question. -/
def promptPart2 : Str :=
  pyStr "\n\n## QUESTION TO ANSWER:\n"

/-- Prompt template text after the question (app.py lines 333-364). -/
def promptPart3 : Str :=
  pyStr "\n\n## INSTRUCTIONS:\n1. **USE ONLY THE PROVIDED CONTEXT ABOVE** - Do not use any external knowledge\n2. **SYNTHESIZE INFORMATION** - Combine relevant information from multiple sources if applicable\n3. **BE DETAILED AND WELL-STRUCTURED** - Provide comprehensive answer with clear organization\n4. **USE MARKDOWN FORMATTING**:\n   - Use **bold** for emphasis and important terms\n   - Use bullet points for lists\n   - Use tables for comparisons, data presentation, or structured information\n   - Use headers (##, ###) for section organization\n5. **TABLE CREATION GUIDELINES**:\n   - Create tables when comparing multiple items, showing features, or presenting structured data\n   - Use proper markdown table syntax with headers and alignment\n   - Example table format:\n     | Feature | Item A | Item B | Item C |\n     |---------|--------|--------|--------|\n     | Price   | $100   | $150   | $200   |\n     | Rating  | 4.5    | 4.2    | 4.8    |\n6. **CITE YOUR SOURCES** - For each key point, include citation like [Source X]\n7. **IF INFORMATION IS INSUFFICIENT** - If the context does not contain enough information to answer the question properly, respond with exactly: \"Data not found\"\n8. **DO NOT INVENT INFORMATION** - Only use what's explicitly stated in the context\n9. **DO NOT INCLUDE THINKING OR ANALYSIS** - Provide only the final answer\n\n## ANSWER STRUCTURE:\n1. Start with a direct, concise answer to the question\n2. Provide detailed explanations with supporting evidence from sources\n3. Use tables when presenting comparisons, features, or structured data\n4. Include specific examples from the context with proper citations\n5. End with a brief summary or conclusion\n6. Format using markdown for better readability\n\n## SYNTHESIZED ANSWER (with markdown formatting):\nBased ONLY on the provided context, provide a comprehensive answer to the question. Use markdown formatting including tables where appropriate:"

/-- The prompt f-string of `ask_question` (app.py lines 325-364).  It
interpolates only `context_text` and `question`; the `history_text` computed
just above it in the source is never referenced by the template. -/
def build_prompt (ctx question : Str) : Str :=
  promptPart1 ++ ctx ++ promptPart2 ++ question ++ promptPart3

/-- `history_text` as assembled in `ask_question` (app.py lines 308-313)
from the last three `(role, message)` turns.  Computed by the source but not
interpolated into the prompt. -/
def history_text (history : List (Str × Str)) : Str :=
  if history = [] then []
  else
    (history.drop (history.length - 3)).foldl
      (fun acc rm => acc ++ rm.1 ++ pyStr ": " ++ rm.2 ++ pyStr "\n")
      (pyStr "Previous conversation (for context only):\n")

/-- `RAGSystemAPI.check_cache` (app.py lines 266-270): exact-match lookup of
the question text. -/
def check_cache (cache : List (Str × Str)) (q : Str) : Option Str :=
  (cache.find? (fun p => p.1 == q)).map (fun p => p.2)

/-- `RAGSystemAPI.save_cache` (app.py lines 272-278): `INSERT OR REPLACE`,
i.e. last-write-wins on the exact question text. -/
def save_cache (cache : List (Str × Str)) (q a : Str) : List (Str × Str) :=
  (q, a) :: cache.filter (fun p => !(p.1 == q))

/-- The two external collaborators of `ask_question`: `hybrid_retrieve`
specialised to the fixed corpus/alpha (a function of the question text only)
and `call_ollama` (`Except.error` models a raised exception). -/
structure Oracles where
  retrieve : Str → List RResult
  gen : Str → Except Str Str

/-- The mutable store touched by `ask_question`: question cache and chat
message log (`(session_id, role, message)` in insertion order). -/
structure SysState where
  cache : List (Str × Str)
  messages : List (Int × Str × Str)

/-- The observable outcome of one `ask_question` call.  `retrievals` and
`generations` count the invocations of `hybrid_retrieve` and `call_ollama`
made by the call; `promptUsed` records the prompt passed to the completion
service, if any. -/
structure AskOut where
  answer : Str
  sources : List RResult
  from_cache : Bool
  retrievals : ℕ
  generations : ℕ
  promptUsed : Option Str

/-- `RAGSystemAPI.get_session_messages` restricted to the `(role, message)`
pairs `ask_question` consumes (app.py lines 242-250): messages of the
session in insertion order. -/
def get_session_messages (st : SysState) (sid : Int) : List (Str × Str) :=
  (st.messages.filter (fun m => m.1 == sid)).map (fun m => (m.2.1, m.2.2))

/-- The cache test at the top of `ask_question` (app.py lines 282-284):
`if use_cache:` then `cached = self.check_cache(question)` and `if cached:`.
Python truthiness makes an empty cached string a miss. -/
def cacheHit (st : SysState) (q : Str) (use_cache : Bool) : Option Str :=
  if use_cache then
    match check_cache st.cache q with
    | some a => if a = [] then none else some a
    | none => none
  else none

/-- The cache-hit branch of `ask_question` (app.py lines 284-291). -/
def hitStep (st : SysState) (sid : Int) (q cached : Str) : AskOut × SysState :=
  (⟨cached, [], true, 0, 0, none⟩,
   ⟨st.cache,
    st.messages ++ [(sid, pyStr "user", q), (sid, pyStr "assistant", cached)]⟩)

/-- The gate-refusal branch of `ask_question` (app.py lines 296-305):
sentinel answer, no sources, answer cached. -/
def gateStep (st : SysState) (sid : Int) (q : Str) : AskOut × SysState :=
  (⟨sentinel, [], false, 1, 0, none⟩,
   ⟨save_cache st.cache q sentinel,
    st.messages ++ [(sid, pyStr "user", q), (sid, pyStr "assistant", sentinel)]⟩)

/-- The generation branch of `ask_question` (app.py lines 307-412): build
the prompt, call the completion service, post-process (or convert a raised
exception to an error-description answer), log and cache. -/
def genStep (o : Oracles) (st : SysState) (sid : Int) (q : Str)
    (retrieved : List RResult) : AskOut × SysState :=
  let _history := history_text (get_session_messages st sid)
  let prompt := build_prompt (context_text retrieved) q
  let answer :=
    match o.gen prompt with
    | Except.ok raw => post_process retrieved raw
    | Except.error e => pyStr "Error generating answer: " ++ e
  (⟨answer, retrieved.take 5, false, 1, 1, some prompt⟩,
   ⟨save_cache st.cache q answer,
    st.messages ++ [(sid, pyStr "user", q), (sid, pyStr "assistant", answer)]⟩)

/-- The non-cached path of `ask_question` (app.py lines 293-305): retrieve,
gate on `not retrieved or retrieved[0]["score"] < 0.12`, else generate. -/
def missPath (o : Oracles) (st : SysState) (sid : Int) (q : Str) :
    AskOut × SysState :=
  match o.retrieve q with
  | [] => gateStep st sid q
  | top :: rest =>
      if top.score < minCombinedScore then gateStep st sid q
      else genStep o st sid q (top :: rest)

/-- `RAGSystemAPI.ask_question` (app.py lines 280-412). -/
def ask_question (o : Oracles) (st : SysState) (sid : Int) (q : Str)
    (use_cache : Bool) : AskOut × SysState :=
  match cacheHit st q use_cache with
  | some cached => hitStep st sid q cached
  | none => missPath o st sid q

/-- One row of a content table as read by `load_chunks` (app.py line 118):
`SELECT chunk_id, page_number, chunk_text, embedding`.  The embedding column
is `none` for SQL NULL, `some none` for a blob `pickle.loads` rejects, and
`some (some v)` for a successfully deserialized vector. -/
structure Row where
  chunk_id : Int
  page_number : Option Int
  chunk_text : Str
  embedding : Option (Option (List ℚ))
deriving DecidableEq

/-- The reserved management tables skipped by `load_chunks`
(app.py line 113). -/
def reservedTables : List Str :=
  [pyStr "sqlite_sequence", pyStr "chat_sessions",
   pyStr "chat_messages", pyStr "question_cache"]

/-- The per-row body of the `load_chunks` loop (app.py lines 120-134): skip
rows with a NULL embedding, skip rows whose blob fails to deserialize,
otherwise keep the chunk; the text is stored as-is, with no emptiness
check. -/
def rowToChunk (t : Str) (row : Row) : Option Chunk :=
  match row.embedding with
  | none => none
  | some none => none
  | some (some e) => some ⟨t, row.chunk_id, row.page_number, row.chunk_text, e⟩

/-- `RAGSystemAPI.load_chunks` (app.py lines 108-137).  A table is given as
`(name, none)` when scanning it raises (the `except: continue` case) and
`(name, some rows)` when it is readable. -/
def load_chunks (tables : List (Str × Option (List Row))) : List Chunk :=
  ((tables.filter (fun t => !(reservedTables.contains t.1))).map
    (fun t =>
      match t.2 with
      | none => []
      | some rows => rows.filterMap (rowToChunk t.1))).flatten

/-- Concrete corpus for the C2 witness. -/
def exChunks2 : List Chunk :=
  [⟨pyStr "t0", 0, none, pyStr "alpha text", [1]⟩,
   ⟨pyStr "t1", 1, none, pyStr "beta", [0]⟩]

/-- Concrete corpus for C5: the first chunk text is 301 characters long, so
the 300-character preview differs from the full text. -/
def exChunks5 : List Chunk :=
  [⟨pyStr "t0", 0, none, List.replicate 301 'a', [1]⟩,
   ⟨pyStr "t1", 1, none, pyStr "short", [0]⟩]

/-- Concrete corpus for C9: chunks 0 and 1 receive equal fused scores. -/
def exChunks9 : List Chunk :=
  [⟨pyStr "t", 0, none, pyStr "c0", []⟩,
   ⟨pyStr "t", 1, none, pyStr "c1", []⟩,
   ⟨pyStr "t", 2, none, pyStr "c2", []⟩]

/-- Concrete table list for C8: one readable content table holding a row
with an empty text and a valid embedding. -/
def exTables8 : List (Str × Option (List Row)) :=
  [(pyStr "docs", some [⟨7, some 2, [], some (some [1, 0])⟩])]

/-- Oracle whose retrieval always comes back empty. -/
def exOracle : Oracles := ⟨fun _ => [], fun _ => Except.ok []⟩

/-- A concrete retrieval result used by witnesses. -/
def exResult : RResult := ⟨pyStr "sales", 3, some 7, pyStr "row text", 1, 1, 0⟩

/-- Oracle whose retrieval surfaces `exResult`. -/
def exOracleR : Oracles :=
  ⟨fun _ => [exResult], fun _ => Except.ok (pyStr "An answer.")⟩

/-- Empty store. -/
def exState : SysState := ⟨[], []⟩

/-- Store whose cache already holds an answer for question `q1`. -/
def exCachedState : SysState := ⟨[(pyStr "q1", pyStr "cached answer")], []⟩

theorem foldl_min_le_init (l : List ℚ) (init : ℚ) : l.foldl min init ≤ init := by
  induction l generalizing init with
  | nil => simp
  | cons a t ih =>
      simpa using le_trans (ih (min init a)) (min_le_left _ _)

theorem foldl_min_le_mem (l : List ℚ) (init : ℚ) :
    ∀ x ∈ l, l.foldl min init ≤ x := by
  induction l generalizing init with
  | nil => simp
  | cons a t ih =>
      intro x hx
      rcases List.mem_cons.1 hx with rfl | hx
      · exact le_trans (foldl_min_le_init t (min init x)) (min_le_right _ _)
      · exact ih (min init a) x hx

theorem init_le_foldl_max (l : List ℚ) (init : ℚ) : init ≤ l.foldl max init := by
  induction l generalizing init with
  | nil => simp
  | cons a t ih =>
      simpa using le_trans (le_max_left init a) (ih (max init a))

theorem mem_le_foldl_max (l : List ℚ) (init : ℚ) :
    ∀ x ∈ l, x ≤ l.foldl max init := by
  induction l generalizing init with
  | nil => simp
  | cons a t ih =>
      intro x hx
      rcases List.mem_cons.1 hx with rfl | hx
      · exact le_trans (le_max_right init x) (init_le_foldl_max t (max init x))
      · exact ih (max init a) x hx

theorem arrMin_le_mem (arr : List ℚ) : ∀ x ∈ arr, arrMin arr ≤ x :=
  foldl_min_le_mem arr (arr.headD 0)

theorem mem_le_arrMax (arr : List ℚ) : ∀ x ∈ arr, x ≤ arrMax arr :=
  mem_le_foldl_max arr (arr.headD 0)

theorem arrMin_le_arrMax (arr : List ℚ) (h : arr ≠ []) :
    arrMin arr ≤ arrMax arr := by
  rcases arr with _ | ⟨a, t⟩
  · exact absurd rfl h
  · exact le_trans (arrMin_le_mem _ a (List.mem_cons_self a t))
      (mem_le_arrMax _ a (List.mem_cons_self a t))

/-- C3: for every non-empty score array, `normalize_scores` keeps every output
element inside `[0,1]`; when the range `max - min` is below `1e-12` (in
particular for any constant array, all zeros included) the output is the
all-zeros array; otherwise the output is exactly the min-max map
`(x - min) / (max - min)`. -/
theorem normalize_scores_bounds (arr : List ℚ) (h : arr ≠ []) :
    (∀ y ∈ normalize_scores arr, 0 ≤ y ∧ y ≤ 1)
  ∧ (arrMax arr - arrMin arr < epsRange →
      normalize_scores arr = List.replicate arr.length 0)
  ∧ (¬ arrMax arr - arrMin arr < epsRange →
      normalize_scores arr
        = arr.map (fun x => (x - arrMin arr) / (arrMax arr - arrMin arr))) := by
  have habs : |arrMax arr - arrMin arr| = arrMax arr - arrMin arr :=
    abs_of_nonneg (sub_nonneg.2 (arrMin_le_arrMax arr h))
  refine ⟨?_, ?_, ?_⟩
  · intro y hy
    unfold normalize_scores at hy
    rw [if_neg h] at hy
    by_cases hsmall : |arrMax arr - arrMin arr| < epsRange
    · rw [if_pos hsmall] at hy
      rcases List.mem_map.1 hy with ⟨x, _, rfl⟩
      exact ⟨le_refl 0, by norm_num⟩
    · rw [if_neg hsmall] at hy
      rcases List.mem_map.1 hy with ⟨x, hx, rfl⟩
      have hpos : 0 < arrMax arr - arrMin arr := by
        rcases lt_or_eq_of_le (sub_nonneg.2 (arrMin_le_arrMax arr h)) with hlt | heq
        · exact hlt
        · exfalso
          apply hsmall
          rw [habs, ← heq]
          unfold epsRange
          norm_num
      constructor
      · exact div_nonneg (sub_nonneg.2 (arrMin_le_mem arr x hx)) (le_of_lt hpos)
      · exact (div_le_one hpos).2 (sub_le_sub_right (mem_le_arrMax arr x hx) _)
  · intro hsmall
    unfold normalize_scores
    rw [if_neg h, if_pos (by rw [habs]; exact hsmall)]
    simp [List.map_const]
  · intro hbig
    unfold normalize_scores
    rw [if_neg h, if_neg (by rw [habs]; exact hbig)]

/-- Witness for C3 at the concrete array `[1, 3]`. -/
theorem normalize_scores_bounds_witness :
    (∀ y ∈ normalize_scores [1, 3], 0 ≤ y ∧ y ≤ 1)
  ∧ (arrMax [1, 3] - arrMin [1, 3] < epsRange →
      normalize_scores [1, 3] = List.replicate ([1, 3] : List ℚ).length 0)
  ∧ (¬ arrMax [1, 3] - arrMin [1, 3] < epsRange →
      normalize_scores [1, 3]
        = ([1, 3] : List ℚ).map
            (fun x => (x - arrMin [1, 3]) / (arrMax [1, 3] - arrMin [1, 3]))) :=
  normalize_scores_bounds [1, 3] (by decide)

theorem insertDesc_perm (r : RResult) (l : List RResult) :
    (insertDesc r l).Perm (r :: l) := by
  induction l with
  | nil => simp [insertDesc]
  | cons x xs ih =>
      unfold insertDesc
      by_cases hx : x.score < r.score
      · rw [if_pos hx]
      · rw [if_neg hx]
        exact (ih.cons x).trans (List.Perm.swap r x xs)

theorem sortDesc_perm (l : List RResult) : (sortDesc l).Perm l := by
  suffices h : ∀ acc : List RResult,
      (l.foldl (fun acc r => insertDesc r acc) acc).Perm (acc ++ l) by
    simpa [sortDesc] using h []
  induction l with
  | nil => simp
  | cons r t ih =>
      intro acc
      simp only [List.foldl_cons]
      refine (ih (insertDesc r acc)).trans ?_
      refine (List.Perm.append_right t (insertDesc_perm r acc)).trans ?_
      simpa using (@List.perm_middle RResult r acc t).symm

theorem mem_sortDesc {r : RResult} {l : List RResult} :
    r ∈ sortDesc l ↔ r ∈ l :=
  (sortDesc_perm l).mem_iff

theorem mem_candidates_score_pos {chunks : List Chunk}
    {combined f_norm b_norm : List ℚ} {idxs : List ℕ} {r : RResult}
    (hr : r ∈ candidates chunks combined f_norm b_norm idxs) : 0 < r.score := by
  rcases List.mem_filterMap.1 hr with ⟨idx, _, hsome⟩
  by_cases hle : combined.getD idx 0 ≤ 0
  · rw [if_pos hle] at hsome
    exact absurd hsome (by simp)
  · rw [if_neg hle] at hsome
    have hs : r.score = combined.getD idx 0 := by
      cases hsome
      rfl
    rw [hs]
    exact lt_of_not_le hle

/-- C2: every result returned by `hybrid_retrieve` has a strictly positive
fused score, for every corpus, every pair of raw score vectors, every fusion
weight and every argsort order. -/
theorem hybrid_retrieve_scores_pos (chunks : List Chunk)
    (faiss_scores bm25_scores : List ℚ) (alpha : ℚ)
    (argsort_idxs : List ℕ) (final_k : ℕ) :
    ∀ r ∈ hybrid_retrieve chunks faiss_scores bm25_scores alpha argsort_idxs final_k,
      0 < r.score := by
  intro r hr
  exact mem_candidates_score_pos (mem_sortDesc.1 hr)

theorem exNorm2 : normalize_scores [1, 0] = [1, 0] := by
  norm_num [normalize_scores, arrMin, arrMax, epsRange, min_def, max_def]

theorem exComb2 : combined_scores [1, 0] [1, 0] (6/10) = [1, 0] := by
  norm_num [combined_scores]

theorem exRetrieve2 :
    hybrid_retrieve exChunks2 [1, 0] [1, 0] (6/10) [0, 1] 8
      = [⟨pyStr "t0", 0, none, pyStr "alpha text...", 1, 1, 1⟩] := by
  unfold hybrid_retrieve selection
  rw [exNorm2, exComb2]
  have h0 : ¬ (([1, 0] : List ℚ).getD 0 0 ≤ 0) := by norm_num
  have h1 : (([1, 0] : List ℚ).getD 1 0 ≤ 0) := by norm_num
  simp only [candidates, List.take, List.filterMap_cons, List.filterMap_nil,
    if_neg h0, if_pos h1]
  simp only [sortDesc, List.foldl_cons, List.foldl_nil, insertDesc]
  congr 1

/-- Witness for C2: on a concrete two-chunk corpus the surfaced result has a
positive fused score. -/
theorem hybrid_retrieve_scores_pos_witness :
    0 < (⟨pyStr "t0", 0, none, pyStr "alpha text...", 1, 1, 1⟩ : RResult).score :=
  hybrid_retrieve_scores_pos exChunks2 [1, 0] [1, 0] (6/10) [0, 1] 8
    ⟨pyStr "t0", 0, none, pyStr "alpha text...", 1, 1, 1⟩
    (by rw [exRetrieve2]; exact List.mem_singleton.2 rfl)

theorem insertDesc_pairwise (r : RResult) (l : List RResult)
    (h : List.Pairwise (fun a b : RResult => b.score ≤ a.score) l) :
    List.Pairwise (fun a b : RResult => b.score ≤ a.score) (insertDesc r l) := by
  induction l with
  | nil => simp [insertDesc]
  | cons x xs ih =>
      unfold insertDesc
      by_cases hx : x.score < r.score
      · rw [if_pos hx]
        refine List.Pairwise.cons ?_ h
        intro y hy
        rcases List.mem_cons.1 hy with rfl | hy
        · exact le_of_lt hx
        · exact le_trans (List.rel_of_pairwise_cons h hy) (le_of_lt hx)
      · rw [if_neg hx]
        refine List.Pairwise.cons ?_ (ih (List.Pairwise.of_cons h))
        intro y hy
        rcases List.mem_cons.1 ((insertDesc_perm r xs).mem_iff.1 hy) with rfl | hy
        · exact le_of_not_lt hx
        · exact List.rel_of_pairwise_cons h hy

theorem sortDesc_pairwise (l : List RResult) :
    List.Pairwise (fun a b : RResult => b.score ≤ a.score) (sortDesc l) := by
  suffices h : ∀ acc : List RResult,
      List.Pairwise (fun a b : RResult => b.score ≤ a.score) acc →
      List.Pairwise (fun a b : RResult => b.score ≤ a.score)
        (l.foldl (fun acc r => insertDesc r acc) acc) by
    exact h [] (by simp)
  induction l with
  | nil => intro acc hacc; simpa using hacc
  | cons r t ih =>
      intro acc hacc
      simp only [List.foldl_cons]
      exact ih (insertDesc r acc) (insertDesc_pairwise r acc hacc)

theorem sorted_head_filter_nil (s : ℚ) (x : RResult) (xs : List RResult)
    (h : List.Pairwise (fun a b : RResult => b.score ≤ a.score) (x :: xs))
    (hx : x.score < s) :
    (x :: xs).filter (fun y => y.score == s) = [] := by
  rw [List.filter_eq_nil_iff]
  intro y hy
  have hyx : y.score ≤ x.score := by
    rcases List.mem_cons.1 hy with rfl | hmem
    · exact le_refl _
    · exact List.rel_of_pairwise_cons h hmem
  simp only [beq_iff_eq]
  exact ne_of_lt (lt_of_le_of_lt hyx hx)

theorem insertDesc_filter (s : ℚ) (r : RResult) (l : List RResult)
    (h : List.Pairwise (fun a b : RResult => b.score ≤ a.score) l) :
    (insertDesc r l).filter (fun y => y.score == s)
      = if r.score == s
        then l.filter (fun y => y.score == s) ++ [r]
        else l.filter (fun y => y.score == s) := by
  induction l with
  | nil =>
      simp only [insertDesc, List.filter_nil, List.nil_append]
      by_cases hrs : r.score = s <;> simp [List.filter_cons, hrs]
  | cons x xs ih =>
      unfold insertDesc
      by_cases hlt : x.score < r.score
      · rw [if_pos hlt]
        by_cases hrs : r.score = s
        · have hnil := sorted_head_filter_nil s x xs h (hrs ▸ hlt)
          rw [if_pos (beq_iff_eq.2 hrs), List.filter_cons,
            if_pos (by simpa using hrs), hnil]
          simp
        · rw [if_neg (by simpa using hrs), List.filter_cons,
            if_neg (by simpa using hrs)]
      · rw [if_neg hlt]
        simp only [List.filter_cons]
        rw [ih (List.Pairwise.of_cons h)]
        by_cases hxs : x.score = s
        · simp only [beq_iff_eq, if_pos hxs]
          by_cases hrs : r.score = s <;> simp [hrs]
        · simp only [beq_iff_eq, if_neg hxs]

theorem sortDesc_filter (l : List RResult) (s : ℚ) :
    (sortDesc l).filter (fun y => y.score == s)
      = l.filter (fun y => y.score == s) := by
  suffices h : ∀ acc : List RResult,
      List.Pairwise (fun a b : RResult => b.score ≤ a.score) acc →
      (l.foldl (fun acc r => insertDesc r acc) acc).filter (fun y => y.score == s)
        = acc.filter (fun y => y.score == s) ++ l.filter (fun y => y.score == s) by
    simpa using h [] (by simp)
  induction l with
  | nil => intro acc _; simp
  | cons r t ih =>
      intro acc hacc
      simp only [List.foldl_cons]
      rw [ih (insertDesc r acc) (insertDesc_pairwise r acc hacc)]
      rw [insertDesc_filter s r acc hacc]
      by_cases hrs : r.score = s
      · rw [if_pos (beq_iff_eq.2 hrs)]
        simp [List.filter_cons, beq_iff_eq, hrs]
      · rw [if_neg (by simpa using hrs)]
        simp [List.filter_cons, beq_iff_eq, hrs]

/-- C9 (amended): the list returned by `hybrid_retrieve` is sorted by fused
score in descending order, and the final re-sort is stable: for every score
value, the results carrying that score appear in exactly the order in which
the selection step (`np.argsort(-combined)[:final_k]` plus the positivity
filter) produced them.  Loader-order tie-breaking is NOT guaranteed, because
`np.argsort` is called with its default unstable quicksort — see the
counterexample `tie_order_counterexample`. -/
theorem hybrid_retrieve_sorted_stable (chunks : List Chunk)
    (faiss_scores bm25_scores : List ℚ) (alpha : ℚ)
    (argsort_idxs : List ℕ) (final_k : ℕ) :
    List.Pairwise (fun a b : RResult => b.score ≤ a.score)
      (hybrid_retrieve chunks faiss_scores bm25_scores alpha argsort_idxs final_k)
  ∧ ∀ s : ℚ,
      (hybrid_retrieve chunks faiss_scores bm25_scores alpha argsort_idxs final_k).filter
          (fun y => y.score == s)
        = (selection chunks faiss_scores bm25_scores alpha argsort_idxs final_k).filter
            (fun y => y.score == s) :=
  ⟨sortDesc_pairwise _, fun s => sortDesc_filter _ s⟩

theorem exComb9 :
    combined_scores (normalize_scores [1, 1, 0]) (normalize_scores [1, 1, 0]) (6/10)
      = [1, 1, 0] := by
  norm_num [normalize_scores, combined_scores, arrMin, arrMax, epsRange,
    min_def, max_def]

theorem exRetrieve9 :
    hybrid_retrieve exChunks9 [1, 1, 0] [1, 1, 0] (6/10) [1, 0, 2] 8
      = [⟨pyStr "t", 1, none, pyStr "c1...", 1, 1, 1⟩,
         ⟨pyStr "t", 0, none, pyStr "c0...", 1, 1, 1⟩] := by
  have hn : normalize_scores [1, 1, 0] = [1, 1, 0] := by
    norm_num [normalize_scores, arrMin, arrMax, epsRange, min_def, max_def]
  unfold hybrid_retrieve selection
  rw [exComb9, hn]
  have h0 : ¬ (([1, 1, 0] : List ℚ).getD 0 0 ≤ 0) := by norm_num
  have h1 : ¬ (([1, 1, 0] : List ℚ).getD 1 0 ≤ 0) := by norm_num
  have h2 : (([1, 1, 0] : List ℚ).getD 2 0 ≤ 0) := by norm_num
  simp only [candidates, List.take, List.filterMap_cons, List.filterMap_nil,
    if_neg h0, if_neg h1, if_pos h2]
  simp only [sortDesc, List.foldl_cons, List.foldl_nil, insertDesc]
  have hlt : ¬ ((mkResult exChunks9 [1, 1, 0] [1, 1, 0] [1, 1, 0] 1).score
      < (mkResult exChunks9 [1, 1, 0] [1, 1, 0] [1, 1, 0] 0).score) := by
    simp only [mkResult, List.getD]
    norm_num
  rw [if_neg hlt]
  congr 1

/-- C9 (counterexample): with three chunks whose fused scores are
`[1, 1, 0]`, the index order `[1, 0, 2]` satisfies the `np.argsort`
contract (`argsortOK`), yet `hybrid_retrieve` returns the two tied results
in the order chunk 1 before chunk 0 — the opposite of loader order — so
loader-order tie-breaking does not hold for every valid argsort outcome. -/
theorem tie_order_counterexample :
    argsortOK [1, 0, 2]
      (combined_scores (normalize_scores [1, 1, 0]) (normalize_scores [1, 1, 0]) (6/10))
  ∧ (hybrid_retrieve exChunks9 [1, 1, 0] [1, 1, 0] (6/10) [1, 0, 2] 8).map
      (fun r => r.chunk_id) = [1, 0]
  ∧ (hybrid_retrieve exChunks9 [1, 1, 0] [1, 1, 0] (6/10) [1, 0, 2] 8).map
      (fun r => r.score) = [1, 1] := by
  refine ⟨?_, ?_, ?_⟩
  · rw [exComb9]
    constructor
    · decide
    · norm_num [List.chain'_cons, List.getD]
  · rw [exRetrieve9]
    rfl
  · rw [exRetrieve9]
    rfl

/-- C7: `set_alpha` accepts exactly the values inside `[0, 1]`, updating the
live fusion weight to the requested value; any value outside `[0, 1]` is
rejected with the weight left unchanged, so every subsequent
`hybrid_retrieve` still fuses with the prior alpha. -/
theorem set_alpha_spec (a v : ℚ) :
    ((0 ≤ v ∧ v ≤ 1) → set_alpha a v = (v, true))
  ∧ (¬ (0 ≤ v ∧ v ≤ 1) →
      set_alpha a v = (a, false)
      ∧ ∀ (chunks : List Chunk) (f b : List ℚ) (p : List ℕ) (k : ℕ),
          hybrid_retrieve chunks f b (set_alpha a v).1 p k
            = hybrid_retrieve chunks f b a p k) := by
  constructor
  · intro h
    simp [set_alpha, h]
  · intro h
    have hs : set_alpha a v = (a, false) := by simp [set_alpha, h]
    exact ⟨hs, fun chunks f b p k => by rw [hs]⟩

/-- Witness for C7: `0.5` is accepted and becomes the live weight; `1.5` is
rejected and the prior weight `0.6` is kept. -/
theorem set_alpha_spec_witness :
    set_alpha (6/10) (1/2) = (1/2, true)
  ∧ set_alpha (6/10) (3/2) = ((6/10 : ℚ), false) :=
  ⟨(set_alpha_spec (6/10) (1/2)).1 (by norm_num),
   ((set_alpha_spec (6/10) (3/2)).2 (by norm_num)).1⟩

/-- C4: when the post-processed answer is non-empty, differs from the
sentinel, and contains no `[Source` marker, the citation-enforcement step of
`ask_question` appends exactly one attribution line naming the top retrieval
result's source table and page; when the answer already contains `[Source`,
the step returns it unmodified. -/
theorem citation_enforcement :
    (∀ (top : RResult) (rest : List RResult) (answer : Str),
        answer ≠ [] → answer ≠ sentinel →
        pyIn (pyStr "[Source") answer = false →
        enforce_citation (top :: rest) answer = answer ++ attribution top)
  ∧ (∀ (retrieved : List RResult) (answer : Str),
        pyIn (pyStr "[Source") answer = true →
        enforce_citation retrieved answer = answer) := by
  constructor
  · intro top rest answer h1 h2 h3
    unfold enforce_citation
    rw [if_neg (by simp [h1, h2]), if_neg (by simp [h3])]
  · intro retrieved answer h
    unfold enforce_citation
    by_cases h0 : answer = [] ∨ answer = sentinel
    · rw [if_pos h0]
    · rw [if_neg h0, if_pos h]

/-- Witness for C4 at a concrete answer with no citation (gets the
attribution line) and a concrete answer with a citation (unchanged). -/
theorem citation_enforcement_witness :
    enforce_citation [exResult] (pyStr "The answer is 42.")
      = pyStr "The answer is 42." ++ attribution exResult
  ∧ enforce_citation [] (pyStr "ok [Source 1]") = pyStr "ok [Source 1]" :=
  ⟨citation_enforcement.1 exResult [] (pyStr "The answer is 42.")
      (by decide) (by decide) (by decide),
   citation_enforcement.2 [] (pyStr "ok [Source 1]") (by decide)⟩

theorem normalize_scores_length (arr : List ℚ) :
    (normalize_scores arr).length = arr.length := by
  unfold normalize_scores
  split
  · rfl
  · split <;> simp

/-- C5 (amended): the 300-character truncation (with `"..."` appended) is
applied inside `hybrid_retrieve` to the text field of every result it
returns, so the prompt composer — which interpolates exactly those text
fields via `context_text` — embeds the truncated previews, the same text the
caller payload shows, not the full chunk text. -/
theorem hybrid_retrieve_text_truncated (chunks : List Chunk)
    (faiss_scores bm25_scores : List ℚ) (alpha : ℚ)
    (argsort_idxs : List ℕ) (final_k : ℕ)
    (hf : faiss_scores.length = chunks.length)
    (hb : bm25_scores.length = chunks.length) :
    (∀ r ∈ hybrid_retrieve chunks faiss_scores bm25_scores alpha argsort_idxs final_k,
        ∃ c ∈ chunks, r.text = c.text.take 300 ++ pyStr "..."
          ∧ r.table = c.table ∧ r.chunk_id = c.chunk_id)
  ∧ (∀ (o : Oracles) (st : SysState) (sid : Int) (q : Str)
        (retrieved : List RResult),
        (genStep o st sid q retrieved).1.promptUsed
          = some (build_prompt (context_text retrieved) q)) := by
  constructor
  · intro r hr
    rcases List.mem_filterMap.1 (mem_sortDesc.1 hr) with ⟨idx, _, hsome⟩
    by_cases hle :
        (combined_scores (normalize_scores faiss_scores)
          (normalize_scores bm25_scores) alpha).getD idx 0 ≤ 0
    · rw [if_pos hle] at hsome
      exact absurd hsome (by simp)
    · rw [if_neg hle] at hsome
      have hclen :
          (combined_scores (normalize_scores faiss_scores)
            (normalize_scores bm25_scores) alpha).length = chunks.length := by
        simp [combined_scores, normalize_scores_length, hf, hb]
      have hidxlt : idx < chunks.length := by
        by_contra hge
        push_neg at hge
        apply hle
        rw [List.getD_eq_default]
        rw [hclen]
        exact hge
      have hc : chunks.getD idx dummyChunk ∈ chunks := by
        rw [List.getD_eq_getElem chunks dummyChunk hidxlt]
        exact List.getElem_mem hidxlt
      have hr2 := Option.some.inj hsome
      refine ⟨chunks.getD idx dummyChunk, hc, ?_, ?_, ?_⟩ <;>
        rw [← hr2] <;> rfl
  · intro o st sid q retrieved
    rfl

theorem replaceNl_eq_self {l : Str} (h : ∀ c ∈ l, c ≠ '\n') :
    replaceNl l = l := by
  unfold replaceNl
  have hid : ∀ c ∈ l, (if c = '\n' then ' ' else c) = id c :=
    fun c hc => by simp [h c hc]
  rw [List.map_congr_left hid, List.map_id]

theorem dropWhile_ws_eq_self {l : Str}
    (h : ∀ c ∈ l, Char.isWhitespace c = false) :
    l.dropWhile Char.isWhitespace = l := by
  cases l with
  | nil => rfl
  | cons c cs =>
      rw [List.dropWhile_cons, if_neg (by simp [h c (List.mem_cons_self c cs)])]

theorem pyStrip_eq_self {l : Str}
    (h : ∀ c ∈ l, Char.isWhitespace c = false) : pyStrip l = l := by
  unfold pyStrip
  rw [dropWhile_ws_eq_self h,
    dropWhile_ws_eq_self (fun c hc => h c (List.mem_reverse.1 hc)),
    List.reverse_reverse]

theorem context_text_singleton (r : RResult) :
    context_text [r] = chunk_with_source 0 r := by
  unfold context_text
  simp [List.intercalate, List.intersperse]

theorem exText5_clean :
    ∀ c ∈ List.replicate 300 'a' ++ pyStr "...",
      c ≠ '\n' ∧ Char.isWhitespace c = false := by
  intro c hc
  rcases List.mem_append.1 hc with hrep | hdots
  · rw [List.eq_of_mem_replicate hrep]
    decide
  · fin_cases hdots <;> decide

set_option maxRecDepth 8000 in
theorem exRetrieve5 :
    hybrid_retrieve exChunks5 [1, 0] [1, 0] (6/10) [0, 1] 8
      = [⟨pyStr "t0", 0, none, List.replicate 300 'a' ++ pyStr "...", 1, 1, 1⟩] := by
  unfold hybrid_retrieve selection
  rw [exNorm2, exComb2]
  have h0 : ¬ (([1, 0] : List ℚ).getD 0 0 ≤ 0) := by norm_num
  have h1 : (([1, 0] : List ℚ).getD 1 0 ≤ 0) := by norm_num
  simp only [candidates, List.take, List.filterMap_cons, List.filterMap_nil,
    if_neg h0, if_pos h1]
  simp only [sortDesc, List.foldl_cons, List.foldl_nil, insertDesc]
  congr 1

set_option maxRecDepth 8000 in
/-- C5 (counterexample): on a corpus whose top chunk text has 301
characters, the single retrieval result carries the 300-character preview
(plus `"..."`), which differs from the full chunk text, and the context
block interpolated into the prompt is built from that truncated preview. -/
theorem prompt_truncation_counterexample :
    (hybrid_retrieve exChunks5 [1, 0] [1, 0] (6/10) [0, 1] 8).map (fun r => r.text)
        = [List.replicate 300 'a' ++ pyStr "..."]
  ∧ exChunks5.map (fun c => c.text) = [List.replicate 301 'a', pyStr "short"]
  ∧ List.replicate 300 'a' ++ pyStr "..." ≠ List.replicate 301 'a'
  ∧ context_text (hybrid_retrieve exChunks5 [1, 0] [1, 0] (6/10) [0, 1] 8)
      = pyStr "[Source 1: t0, Page None]: "
          ++ (List.replicate 300 'a' ++ pyStr "...") := by
  refine ⟨?_, ?_, ?_, ?_⟩
  · rw [exRetrieve5]
    simp only [List.map_cons, List.map_nil]
  · rfl
  · intro h
    have hlen := congrArg List.length h
    have h3 : (pyStr "...").length = 3 := rfl
    rw [List.length_append, List.length_replicate, List.length_replicate, h3] at hlen
    omega
  · rw [exRetrieve5, context_text_singleton]
    unfold chunk_with_source natStr pageStr
    rw [replaceNl_eq_self (fun c hc => (exText5_clean c hc).1),
      pyStrip_eq_self (fun c hc => (exText5_clean c hc).2)]
    simp only [← List.append_assoc]
    congr 1

/-- Witness for the amended C5 on the concrete 301-character corpus. -/
theorem hybrid_retrieve_text_truncated_witness :
    ∃ c ∈ exChunks5,
      (⟨pyStr "t0", 0, none, List.replicate 300 'a' ++ pyStr "...", 1, 1, 1⟩
          : RResult).text = c.text.take 300 ++ pyStr "..."
      ∧ (⟨pyStr "t0", 0, none, List.replicate 300 'a' ++ pyStr "...", 1, 1, 1⟩
          : RResult).table = c.table
      ∧ (⟨pyStr "t0", 0, none, List.replicate 300 'a' ++ pyStr "...", 1, 1, 1⟩
          : RResult).chunk_id = c.chunk_id :=
  (hybrid_retrieve_text_truncated exChunks5 [1, 0] [1, 0] (6/10) [0, 1] 8
      rfl rfl).1
    ⟨pyStr "t0", 0, none, List.replicate 300 'a' ++ pyStr "...", 1, 1, 1⟩
    (by rw [exRetrieve5]; exact List.mem_singleton.2 rfl)

theorem check_cache_save (c : List (Str × Str)) (q a : Str) :
    check_cache (save_cache c q a) q = some a := by
  unfold check_cache save_cache
  rw [List.find?_cons_of_pos _ (by simp)]
  rfl

theorem cacheHit_none_of (st : SysState) (q : Str) (use_cache : Bool)
    (h : use_cache = false ∨ check_cache st.cache q = none
        ∨ check_cache st.cache q = some []) :
    cacheHit st q use_cache = none := by
  rcases h with h | h | h <;> simp [cacheHit, h]

theorem cacheHit_some (st : SysState) (q a : Str)
    (hc : check_cache st.cache q = some a) (ha : a ≠ []) :
    cacheHit st q true = some a := by
  simp [cacheHit, hc, ha]

theorem ask_question_miss (o : Oracles) (st : SysState) (sid : Int) (q : Str)
    (use_cache : Bool) (h : cacheHit st q use_cache = none) :
    ask_question o st sid q use_cache = missPath o st sid q := by
  unfold ask_question
  rw [h]

theorem ask_question_hit (o : Oracles) (st : SysState) (sid : Int) (q a : Str)
    (h : cacheHit st q true = some a) :
    ask_question o st sid q true = hitStep st sid q a := by
  unfold ask_question
  rw [h]

theorem sentinel_ne_nil : sentinel ≠ [] := by decide

theorem post_process_ne_nil (retrieved : List RResult) (raw : Str) :
    post_process retrieved raw ≠ [] := by
  unfold post_process
  by_cases h : (enforce_citation retrieved (filtered_answer raw)).all
      Char.isWhitespace
  · rw [if_pos h]
    exact sentinel_ne_nil
  · rw [if_neg h]
    intro heq
    apply h
    rw [heq]
    rfl

theorem error_answer_ne_nil (e : Str) :
    pyStr "Error generating answer: " ++ e ≠ [] := by
  intro h
  exact absurd (List.append_eq_nil.mp h).1 (by decide)

theorem missPath_spec (o : Oracles) (st : SysState) (sid : Int) (q : Str) :
    (missPath o st sid q).1.retrievals = 1
  ∧ (missPath o st sid q).1.generations ≤ 1
  ∧ (missPath o st sid q).2.cache
      = save_cache st.cache q (missPath o st sid q).1.answer
  ∧ (missPath o st sid q).1.answer ≠ [] := by
  unfold missPath
  cases hr : o.retrieve q with
  | nil => exact ⟨rfl, by norm_num [gateStep], rfl, sentinel_ne_nil⟩
  | cons top rest =>
      dsimp only
      by_cases htop : top.score < minCombinedScore
      · rw [if_pos htop]
        exact ⟨rfl, by norm_num [gateStep], rfl, sentinel_ne_nil⟩
      · rw [if_neg htop]
        unfold genStep
        dsimp only
        cases hg : o.gen (build_prompt (context_text (top :: rest)) q) with
        | ok raw => exact ⟨rfl, le_refl 1, rfl, post_process_ne_nil _ raw⟩
        | error e => exact ⟨rfl, le_refl 1, rfl, error_answer_ne_nil e⟩

/-- C1: whenever `ask_question` takes the retrieval path (caching disabled
or a cache miss, Python-truthiness included) and the ranked result list is
empty or its top fused score is below the `0.12` threshold, the call returns
exactly the sentinel `"Data not found"` with an empty sources list and no
generation is attempted. -/
theorem gate_refusal (o : Oracles) (st : SysState) (sid : Int) (q : Str)
    (use_cache : Bool)
    (hmiss : use_cache = false ∨ check_cache st.cache q = none
        ∨ check_cache st.cache q = some [])
    (hgate : ∀ top ∈ (o.retrieve q).head?, top.score < minCombinedScore) :
    (ask_question o st sid q use_cache).1.answer = sentinel
  ∧ (ask_question o st sid q use_cache).1.sources = []
  ∧ (ask_question o st sid q use_cache).1.generations = 0 := by
  rw [ask_question_miss o st sid q use_cache (cacheHit_none_of st q use_cache hmiss)]
  unfold missPath
  cases hr : o.retrieve q with
  | nil => exact ⟨rfl, rfl, rfl⟩
  | cons top rest =>
      dsimp only
      have htop : top.score < minCombinedScore := by
        apply hgate
        rw [hr]
        rfl
      rw [if_pos htop]
      exact ⟨rfl, rfl, rfl⟩

/-- Witness for C1 with a concrete empty-corpus oracle and empty store. -/
theorem gate_refusal_witness :
    (ask_question exOracle exState 0 (pyStr "hi") true).1.answer = sentinel
  ∧ (ask_question exOracle exState 0 (pyStr "hi") true).1.sources = []
  ∧ (ask_question exOracle exState 0 (pyStr "hi") true).1.generations = 0 :=
  gate_refusal exOracle exState 0 (pyStr "hi") true (Or.inr (Or.inl rfl))
    (by intro top htop; simp [exOracle] at htop)

/-- C6: asking the same question twice with caching enabled runs retrieval
exactly once and generation at most once (namely on the first call, which is
a cache miss); the second call performs neither retrieval nor generation and
returns exactly the first call's answer text.  After the first call the
final answer — sentinel and error strings included — is in the cache under
the exact question text, and `save_cache` overwrites any prior entry for
that text unconditionally. -/
theorem cache_roundtrip (o : Oracles) (st : SysState) (sid1 sid2 : Int)
    (q : Str) (hmiss : check_cache st.cache q = none) :
    ((ask_question o st sid1 q true).1.retrievals = 1
      ∧ (ask_question o st sid1 q true).1.generations ≤ 1)
  ∧ check_cache ((ask_question o st sid1 q true).2).cache q
      = some ((ask_question o st sid1 q true).1).answer
  ∧ ((ask_question o ((ask_question o st sid1 q true).2) sid2 q true).1.retrievals = 0
      ∧ (ask_question o ((ask_question o st sid1 q true).2) sid2 q true).1.generations = 0
      ∧ (ask_question o ((ask_question o st sid1 q true).2) sid2 q true).1.answer
          = ((ask_question o st sid1 q true).1).answer)
  ∧ (∀ (c : List (Str × Str)) (q2 a2 : Str),
      check_cache (save_cache c q2 a2) q2 = some a2) := by
  have e1 : ask_question o st sid1 q true = missPath o st sid1 q :=
    ask_question_miss o st sid1 q true
      (cacheHit_none_of st q true (Or.inr (Or.inl hmiss)))
  obtain ⟨hret, hgen, hcache, hne⟩ := missPath_spec o st sid1 q
  have hlook : check_cache ((ask_question o st sid1 q true).2).cache q
      = some ((ask_question o st sid1 q true).1).answer := by
    rw [e1, hcache]
    exact check_cache_save _ _ _
  have e2 : ask_question o ((ask_question o st sid1 q true).2) sid2 q true
      = hitStep ((ask_question o st sid1 q true).2) sid2 q
          ((ask_question o st sid1 q true).1).answer :=
    ask_question_hit _ _ _ _ _
      (cacheHit_some _ _ _ hlook (by rw [e1]; exact hne))
  refine ⟨⟨by rw [e1]; exact hret, by rw [e1]; exact hgen⟩, hlook, ?_, ?_⟩
  · rw [e2]
    exact ⟨rfl, rfl, rfl⟩
  · intro c q2 a2
    exact check_cache_save c q2 a2

/-- Witness for C6 with a concrete oracle and an initially empty cache. -/
theorem cache_roundtrip_witness :
    ((ask_question exOracleR exState 0 (pyStr "hello") true).1.retrievals = 1
      ∧ (ask_question exOracleR exState 0 (pyStr "hello") true).1.generations ≤ 1)
  ∧ check_cache ((ask_question exOracleR exState 0 (pyStr "hello") true).2).cache
        (pyStr "hello")
      = some ((ask_question exOracleR exState 0 (pyStr "hello") true).1).answer
  ∧ ((ask_question exOracleR
        ((ask_question exOracleR exState 0 (pyStr "hello") true).2)
        1 (pyStr "hello") true).1.retrievals = 0
      ∧ (ask_question exOracleR
          ((ask_question exOracleR exState 0 (pyStr "hello") true).2)
          1 (pyStr "hello") true).1.generations = 0
      ∧ (ask_question exOracleR
          ((ask_question exOracleR exState 0 (pyStr "hello") true).2)
          1 (pyStr "hello") true).1.answer
          = ((ask_question exOracleR exState 0 (pyStr "hello") true).1).answer)
  ∧ (∀ (c : List (Str × Str)) (q2 a2 : Str),
      check_cache (save_cache c q2 a2) q2 = some a2) :=
  cache_roundtrip exOracleR exState 0 1 (pyStr "hello") rfl

/-- C10: a cache hit (caching requested, cached answer non-empty under
Python truthiness) returns the cached answer with an empty sources list,
whatever the retrieval oracle would have surfaced. -/
theorem cache_hit_empty_sources (o : Oracles) (st : SysState) (sid : Int)
    (q a : Str) (hc : check_cache st.cache q = some a) (ha : a ≠ []) :
    (ask_question o st sid q true).1.sources = []
  ∧ (ask_question o st sid q true).1.answer = a
  ∧ (ask_question o st sid q true).1.from_cache = true := by
  rw [ask_question_hit o st sid q a (cacheHit_some st q a hc ha)]
  exact ⟨rfl, rfl, rfl⟩

/-- Witness for C10 on a concrete pre-populated cache, with an oracle whose
corpus does surface a result (which the hit path ignores). -/
theorem cache_hit_empty_sources_witness :
    (ask_question exOracleR exCachedState 0 (pyStr "q1") true).1.sources = []
  ∧ (ask_question exOracleR exCachedState 0 (pyStr "q1") true).1.answer
      = pyStr "cached answer"
  ∧ (ask_question exOracleR exCachedState 0 (pyStr "q1") true).1.from_cache
      = true :=
  cache_hit_empty_sources exOracleR exCachedState 0 (pyStr "q1")
    (pyStr "cached answer") (by decide) (by decide)

theorem rowToChunk_inv {t : Str} {row : Row} {c : Chunk}
    (h : rowToChunk t row = some c) :
    row.embedding = some (some c.embedding)
  ∧ c.text = row.chunk_text ∧ c.table = t := by
  unfold rowToChunk at h
  match hemb : row.embedding with
  | none => rw [hemb] at h; exact absurd h (by simp)
  | some none => rw [hemb] at h; exact absurd h (by simp)
  | some (some e) =>
      rw [hemb] at h
      cases Option.some.inj h
      exact ⟨rfl, rfl, rfl⟩

/-- C8 (amended): every chunk in the catalog produced by `load_chunks` comes
from a row of a readable, non-reserved table whose embedding blob
deserialized successfully — rows with a NULL or unparseable embedding are
dropped — and the chunk keeps that row's text verbatim.  The text may be
empty: `load_chunks` performs no emptiness check (see
`load_empty_text_counterexample`). -/
theorem load_chunks_amended (tables : List (Str × Option (List Row))) :
    ∀ c ∈ load_chunks tables,
      ∃ t ∈ tables, reservedTables.contains t.1 = false
        ∧ ∃ rows, t.2 = some rows
        ∧ ∃ row ∈ rows, row.embedding = some (some c.embedding)
            ∧ c.text = row.chunk_text ∧ c.table = t.1 := by
  intro c hc
  unfold load_chunks at hc
  rcases List.mem_flatten.1 hc with ⟨l, hl, hcl⟩
  rcases List.mem_map.1 hl with ⟨t, ht, rfl⟩
  rcases List.mem_filter.1 ht with ⟨htmem, htres⟩
  refine ⟨t, htmem, by simpa using htres, ?_⟩
  match hrows : t.2 with
  | none => rw [hrows] at hcl; exact absurd hcl (by simp)
  | some rows =>
      rw [hrows] at hcl
      rcases List.mem_filterMap.1 hcl with ⟨row, hrow, hsome⟩
      obtain ⟨hemb, htext, htab⟩ := rowToChunk_inv hsome
      exact ⟨rows, rfl, row, hrow, hemb, htext, htab⟩

/-- Witness for the amended C8 on the concrete one-table corpus. -/
theorem load_chunks_amended_witness :
    ∃ t ∈ exTables8, reservedTables.contains t.1 = false
      ∧ ∃ rows, t.2 = some rows
      ∧ ∃ row ∈ rows,
          row.embedding
            = some (some (⟨pyStr "docs", 7, some 2, [], [1, 0]⟩ : Chunk).embedding)
          ∧ (⟨pyStr "docs", 7, some 2, [], [1, 0]⟩ : Chunk).text = row.chunk_text
          ∧ (⟨pyStr "docs", 7, some 2, [], [1, 0]⟩ : Chunk).table = t.1 :=
  load_chunks_amended exTables8 ⟨pyStr "docs", 7, some 2, [], [1, 0]⟩ (by decide)

/-- C8 (counterexample): a row with an empty text but a valid embedding is
kept by `load_chunks`, so the catalog contains a chunk whose text is empty —
the claim that empty-text rows are dropped at load time is false. -/
theorem load_empty_text_counterexample :
    (load_chunks exTables8).map (fun c => c.text) = [[]]
  ∧ (load_chunks exTables8).length = 1 := by
  constructor <;> rfl

end RAG
